import Mathlib

/-!
Verification of the loqui server connection handler
(`src/rust/loqui_server/src/connection_handler.rs`).

The Rust code is embedded shallowly: each stage of the connection pipeline
(upgrade, handshake, steady-state frame dispatch) becomes a pure Lean
function.  Asynchronous reads are modelled by passing the result of the
single read the stage performs (`Option (Except Err frame)`, mirroring
`Stream::next`), writes by passing the write function / its outcome, and
the external collaborators (encoder registry, payload codec, request
handler) by function parameters, exactly as they appear at the call sites.
-/

namespace Loqui

/-- Opaque payload bytes (`Vec<u8>` in the source). -/
abbrev Bytes := List Nat

/-- Frame `Hello { flags, version, encodings, compressions }`. -/
structure Hello where
  flags : Nat
  version : Nat
  encodings : List String
  compressions : List String
  deriving DecidableEq, Repr

/-- Frame `HelloAck { flags, ping_interval_ms, encoding, compression }`. -/
structure HelloAck where
  flags : Nat
  ping_interval_ms : Nat
  encoding : String
  compression : Option String
  deriving DecidableEq, Repr

/-- Frame `GoAway { flags, code, payload }`. -/
structure GoAway where
  flags : Nat
  code : Nat
  payload : Bytes
  deriving DecidableEq, Repr

/-- Frame `Ping { flags, sequence_id }`. -/
structure Ping where
  flags : Nat
  sequence_id : Nat
  deriving DecidableEq, Repr

/-- Frame `Pong { flags, sequence_id }`. -/
structure Pong where
  flags : Nat
  sequence_id : Nat
  deriving DecidableEq, Repr

/-- Frame `Push { payload, flags }`. -/
structure Push where
  payload : Bytes
  flags : Nat
  deriving DecidableEq, Repr

/-- Frame `Request { payload, flags, sequence_id }`. -/
structure Request where
  payload : Bytes
  flags : Nat
  sequence_id : Nat
  deriving DecidableEq, Repr

/-- Frame `Response { flags, sequence_id, payload }`. -/
structure Response where
  flags : Nat
  sequence_id : Nat
  payload : Bytes
  deriving DecidableEq, Repr

/-- Frame `Error { flags, sequence_id, code, payload }`. -/
structure ErrorFrame where
  flags : Nat
  sequence_id : Nat
  code : Nat
  payload : Bytes
  deriving DecidableEq, Repr

/-- The closed set of protocol frames (`LoquiFrame` in `loqui_protocol`). -/
inductive LoquiFrame where
  | hello (hello : Hello)
  | helloAck (hello_ack : HelloAck)
  | ping (ping : Ping)
  | pong (pong : Pong)
  | request (request : Request)
  | response (response : Response)
  | push (push : Push)
  | goAway (go_away : GoAway)
  | error (error : ErrorFrame)
  deriving DecidableEq, Repr

/-- Modelled from the spec: the wire opcode of each protocol frame kind.
The numeric opcode values are assigned by the byte-level codec in
`loqui_protocol` (outside this core); the handshake dispatch only uses the
mapping from frame to its opcode and the Hello opcode constant, so the
particular numbers are irrelevant to the claims, only their assignment per
frame kind. -/
def LoquiFrame.opcode : LoquiFrame → Nat
  | .hello _ => 1
  | .helloAck _ => 2
  | .ping _ => 3
  | .pong _ => 4
  | .request _ => 5
  | .response _ => 6
  | .push _ => 7
  | .goAway _ => 8
  | .error _ => 9

/-- Modelled from the spec: `Hello::OPCODE`, the opcode of the `Hello`
frame, consistent with `LoquiFrame.opcode`. -/
def Hello.OPCODE : Nat := 1

/-- Modelled from the spec: `loqui_protocol::VERSION`, "the single protocol
version constant".  Its value lives outside this core; only equality with a
Hello's `version` field matters. -/
def VERSION : Nat := 1

/-- The pre-protocol upgrade frames (`UpgradeFrame` in
`loqui_protocol::upgrade`): a zero-payload request/response pair. -/
inductive UpgradeFrame where
  | request
  | response
  deriving DecidableEq, Repr

/-- Protocol errors raised by this core (`LoquiError` variants used in
`connection_handler.rs`). -/
inductive LoquiError where
  | UnsupportedVersion (expected : Nat) (actual : Nat)
  | NoCommonEncoding
  | NoCommonCompression
  | ToldToGoAway (go_away : GoAway)
  | InvalidOpcode (actual : Nat) (expected : Option Nat)
  | TcpStreamClosed
  | InvalidUpgradeFrame (frame : UpgradeFrame)
  deriving DecidableEq, Repr

/-- The dynamic error type `failure::Error`: either a protocol error of
this core (after `.into()`), or an opaque error from an external
collaborator (transport I/O, payload codec), keyed by a number. -/
inductive Err where
  | loqui (e : LoquiError)
  | external (code : Nat)
  deriving DecidableEq, Repr

/-- `std::time::Duration`: `secs` is the `u64` of whole seconds, `nanos`
the `u32` sub-second nanosecond count (kept below 10^9 by construction in
Rust). -/
structure Duration where
  secs : Nat
  nanos : Nat
  deriving DecidableEq, Repr

/-- `Duration::as_millis`: the total number of whole milliseconds, a
`u128` in Rust.  With `secs < 2^64` and `nanos < 10^9` the value is below
`2^128`, so the mathematical value is exact. -/
def Duration.as_millis (d : Duration) : Nat :=
  d.secs * 1000 + d.nanos / 1000000

/-- `TransportOptions { encoding, compression }` — the immutable result of
negotiation. -/
structure TransportOptions where
  encoding : String
  compression : Option String
  deriving DecidableEq, Repr

/-- `Ready { ping_interval, transport_options }` — the output of a
successful handshake. -/
structure Ready where
  ping_interval : Duration
  transport_options : TransportOptions
  deriving DecidableEq, Repr

/-- `DelegatedFrame`: the steady-state frames handed to `handle_frame` by
the transport driver. -/
inductive DelegatedFrame where
  | push (push : Push)
  | request (request : Request)
  | error (error : ErrorFrame)
  | response (response : Response)
  deriving DecidableEq, Repr

/-- `ConnectionHandler::negotiate_encoding`: scan the client's candidate
list in order, return the first registry hit (`F::find_encoding`), else
fail with `NoCommonEncoding`.  The registry lookup is the parameter
`find_encoding`. -/
def negotiate_encoding (find_encoding : String → Option String) :
    List String → Except Err String
  | [] => .error (.loqui .NoCommonEncoding)
  | client_encoding :: rest =>
    match find_encoding client_encoding with
    | some encoding => .ok encoding
    | none => negotiate_encoding find_encoding rest

/-- The `for` loop inside `ConnectionHandler::negotiate_compression`:
first registry hit wins, exhaustion fails with `NoCommonCompression`. -/
def negotiate_compression_go (find_compression : String → Option String) :
    List String → Except Err (Option String)
  | [] => .error (.loqui .NoCommonCompression)
  | client_compression :: rest =>
    match find_compression client_compression with
    | some compression => .ok (some compression)
    | none => negotiate_compression_go find_compression rest

/-- `ConnectionHandler::negotiate_compression`: an empty candidate list
succeeds with `none`; otherwise run the first-match loop. -/
def negotiate_compression (find_compression : String → Option String)
    (client_compressions : List String) : Except Err (Option String) :=
  if client_compressions.isEmpty then
    .ok none
  else
    negotiate_compression_go find_compression client_compressions

/-- `ConnectionHandler::handle_handshake_hello`: version check, then
encoding and compression negotiation (each `?` propagating its error
unchanged), then construction of `Ready` and `HelloAck`.  The
`ping_interval.as_millis() as u32` cast is the truncating `% 2 ^ 32`. -/
def handle_handshake_hello (find_encoding find_compression : String → Option String)
    (hello : Hello) (ping_interval : Duration) : Except Err (Ready × HelloAck) :=
  if hello.version ≠ VERSION then
    .error (.loqui (.UnsupportedVersion VERSION hello.version))
  else
    match negotiate_encoding find_encoding hello.encodings with
    | .error e => .error e
    | .ok encoding =>
      match negotiate_compression find_compression hello.compressions with
      | .error e => .error e
      | .ok compression =>
        .ok ({ ping_interval := ping_interval,
               transport_options :=
                 { encoding := encoding, compression := compression } },
             { flags := hello.flags,
               ping_interval_ms := ping_interval.as_millis % 2 ^ 32,
               encoding := encoding,
               compression := compression })

/-- `ConnectionHandler::handle_handshake_frame`: `Hello` goes to
validation, `GoAway` fails with `ToldToGoAway`, every other frame kind
fails with `InvalidOpcode { actual, expected: Some(Hello::OPCODE) }`. -/
def handle_handshake_frame (find_encoding find_compression : String → Option String)
    (frame : LoquiFrame) (ping_interval : Duration) : Except Err (Ready × HelloAck) :=
  match frame with
  | .hello hello => handle_handshake_hello find_encoding find_compression hello ping_interval
  | .goAway go_away => .error (.loqui (.ToldToGoAway go_away))
  | frame => .error (.loqui (.InvalidOpcode frame.opcode (some Hello.OPCODE)))

/-- `Handler::handshake` as a function of the single read it performs
(`reader.next()` yields `read_result`) and of the write of the `HelloAck`
(`reader_writer.write(hello_ack)` is `write rw ack`, consuming the stream
and either returning it or an error).  `RW` is the abstract `ReaderWriter`
stream type.  Mirrors the source: a valid `Hello` followed by a successful
write yields `Ok((ready, rw))`; a failed write yields `Err((e, None))`;
every other failure carries `Some rw` back to the caller. -/
def handshake {RW : Type} (find_encoding find_compression : String → Option String)
    (ping_interval : Duration)
    (read_result : Option (Except Err LoquiFrame))
    (write : RW → HelloAck → Except Err RW)
    (reader_writer : RW) :
    Except (Err × Option RW) (Ready × RW) :=
  match read_result with
  | some (.ok frame) =>
    match handle_handshake_frame find_encoding find_compression frame ping_interval with
    | .ok (ready, hello_ack) =>
      match write reader_writer hello_ack with
      | .ok rw => .ok (ready, rw)
      | .error e => .error (e, none)
    | .error e => .error (e, some reader_writer)
  | some (.error e) => .error (e, some reader_writer)
  | none => .error (.loqui .TcpStreamClosed, some reader_writer)

/-- `Handler::upgrade` as a function of the single read it performs and of
the write half.  `send frame` is `writer.send(frame)` (returning the writer
`W` on success); `reunite w` is `writer.reunite(reader)?.into_inner()`,
producing the underlying stream `S`.  Mirrors the source: an
`UpgradeFrame::Request` triggers exactly one `send UpgradeFrame.response`;
any other frame fails with `InvalidUpgradeFrame` without writing; a read
error propagates unchanged; end of stream fails with `TcpStreamClosed`. -/
def upgrade {W S : Type}
    (read_result : Option (Except Err UpgradeFrame))
    (send : UpgradeFrame → Except Err W)
    (reunite : W → Except Err S) : Except Err S :=
  match read_result with
  | some (.ok .request) =>
    match send .response with
    | .ok writer => reunite writer
    | .error e => .error e
  | some (.ok frame) => .error (.loqui (.InvalidUpgradeFrame frame))
  | some (.error e) => .error e
  | none => .error (.loqui .TcpStreamClosed)

/-- The free function `handle_request`: decode the payload (failure pairs
the decode error with the request's `sequence_id`), run the external
handler, encode its result (failure again paired with the `sequence_id`),
and on success build `Response { flags: 0, sequence_id, payload }`.
`D` and `E` are the factory's `Decoded` and `Encoded` types. -/
def handle_request {D E : Type}
    (decode : Bytes → Except Err D)
    (request_handler : D → E)
    (encode : E → Except Err Bytes)
    (request : Request) : Except (Err × Nat) Response :=
  match decode request.payload with
  | .error e => .error (e, request.sequence_id)
  | .ok decoded =>
    match encode (request_handler decoded) with
    | .error e => .error (e, request.sequence_id)
    | .ok payload =>
      .ok { flags := 0, sequence_id := request.sequence_id, payload := payload }

/-- The free function `handle_push`: decode the payload; on success the
decoded value is handed to the request handler's push entry point (the
`some` value here), on failure the error is only logged and the push
dropped (`none`).  No frame is ever produced. -/
def handle_push {D : Type} (decode : Bytes → Except Err D) (push : Push) :
    Option D :=
  match decode push.payload with
  | .ok request => some request
  | .error _ => none

/-- `Handler::handle_frame`: `Push` spawns fire-and-forget work and
returns `None`; `Request` returns `Some` of the `handle_request`
computation; inbound `Error` and `Response` frames are ignored. -/
def handle_frame {D E : Type}
    (decode : Bytes → Except Err D)
    (request_handler : D → E)
    (encode : E → Except Err Bytes) :
    DelegatedFrame → Option (Except (Err × Nat) Response)
  | .push _ => none
  | .request request => some (handle_request decode request_handler encode request)
  | .error _ => none
  | .response _ => none

/-- A concrete encoder registry for evaluation: it recognizes exactly
"json" and "msgpack" (case-sensitively), returning the matched name, as the
spec prescribes for registry lookups. -/
def findReg (s : String) : Option String :=
  if s = "json" then some "json"
  else if s = "msgpack" then some "msgpack"
  else none

/-- A concrete payload decoder for evaluation: a singleton byte list
decodes to that byte, anything else fails with an external codec error. -/
def dec0 : Bytes → Except Err Nat
  | [x] => .ok x
  | _ => .error (.external 1)

/-- A concrete request handler for evaluation. -/
def handler0 (n : Nat) : Nat := n + 1

/-- A concrete payload encoder for evaluation. -/
def enc0 (n : Nat) : Except Err Bytes := .ok [n]

/-- A well-formed Hello for evaluation: correct version, one recognized
encoding, no compression candidates. -/
def helloGood : Hello :=
  { flags := 0, version := VERSION, encodings := ["json"], compressions := [] }

/-- A Hello with a wrong version for evaluation. -/
def helloBad : Hello :=
  { flags := 1, version := 2, encodings := ["json"], compressions := ["gzip"] }

/-- A small concrete ping interval (5 seconds). -/
def dur1 : Duration := { secs := 5, nanos := 0 }

/-- A ping interval whose millisecond count (4294968000) exceeds
`u32::MAX` (4294967295). -/
def durBig : Duration := { secs := 4294968, nanos := 0 }

/-- The HelloAck produced for `helloGood` at interval `durBig`: the
advertised `ping_interval_ms` is the truncated 704 = 4294968000 % 2^32. -/
def ackBig : HelloAck :=
  { flags := 0, ping_interval_ms := 704, encoding := "json", compression := none }

/-- The Ready produced for `helloGood` at interval `durBig`. -/
def readyBig : Ready :=
  { ping_interval := durBig,
    transport_options := { encoding := "json", compression := none } }

/-- A concrete GoAway frame for evaluation. -/
def g0 : GoAway := { flags := 0, code := 2, payload := [] }

/-- A concrete Ping frame for evaluation. -/
def p0 : Ping := { flags := 0, sequence_id := 7 }

/-- A concrete Push frame for evaluation. -/
def push0 : Push := { payload := [4], flags := 0 }

/-- A concrete Request frame for evaluation. -/
def req0 : Request := { payload := [4], flags := 0, sequence_id := 42 }

/-- The concrete registry returns exactly the name it matched. -/
theorem findReg_exact : ∀ c s, findReg c = some s → s = c := by
  intro c s h
  unfold findReg at h
  split_ifs at h with h1 h2 <;> simp_all

/-- If no candidate is recognized, encoding negotiation fails with
`NoCommonEncoding`. -/
theorem negotiate_encoding_all_none (find : String → Option String) :
    ∀ cands : List String, (∀ c ∈ cands, find c = none) →
      negotiate_encoding find cands = .error (.loqui .NoCommonEncoding) := by
  intro cands
  induction cands with
  | nil => intro _; rfl
  | cons c rest ih =>
    intro hall
    have hc : find c = none := hall c (by simp)
    simp only [negotiate_encoding, hc]
    exact ih fun x hx => hall x (by simp [hx])

/-- A successful encoding negotiation splits the candidate list at the
first recognized candidate. -/
theorem negotiate_encoding_ok_split (find : String → Option String) :
    ∀ (cands : List String) (enc : String),
      negotiate_encoding find cands = .ok enc →
      ∃ c pre post, cands = pre ++ c :: post ∧ find c = some enc ∧
        ∀ x ∈ pre, find x = none := by
  intro cands
  induction cands with
  | nil => intro enc h; simp [negotiate_encoding] at h
  | cons c rest ih =>
    intro enc h
    cases hc : find c with
    | some e =>
      have he : e = enc := by
        simp only [negotiate_encoding, hc] at h
        exact Except.ok.inj h
      exact ⟨c, [], rest, rfl, by rw [hc, he], by simp⟩
    | none =>
      have h2 : negotiate_encoding find rest = .ok enc := by
        simpa only [negotiate_encoding, hc] using h
      obtain ⟨c2, pre, post, heq, hfc, hpre⟩ := ih enc h2
      refine ⟨c2, c :: pre, post, by simp [heq], hfc, ?_⟩
      intro x hx
      rcases List.mem_cons.mp hx with hx | hx
      · rw [hx]; exact hc
      · exact hpre x hx

/-- If no candidate is recognized, the compression loop fails with
`NoCommonCompression`. -/
theorem negotiate_compression_go_all_none (find : String → Option String) :
    ∀ cands : List String, (∀ c ∈ cands, find c = none) →
      negotiate_compression_go find cands = .error (.loqui .NoCommonCompression) := by
  intro cands
  induction cands with
  | nil => intro _; rfl
  | cons c rest ih =>
    intro hall
    have hc : find c = none := hall c (by simp)
    simp only [negotiate_compression_go, hc]
    exact ih fun x hx => hall x (by simp [hx])

/-- A successful compression loop splits the candidate list at the first
recognized candidate. -/
theorem negotiate_compression_go_ok_split (find : String → Option String) :
    ∀ (cands : List String) (comp : String),
      negotiate_compression_go find cands = .ok (some comp) →
      ∃ c pre post, cands = pre ++ c :: post ∧ find c = some comp ∧
        ∀ x ∈ pre, find x = none := by
  intro cands
  induction cands with
  | nil => intro comp h; simp [negotiate_compression_go] at h
  | cons c rest ih =>
    intro comp h
    cases hc : find c with
    | some e =>
      have he : e = comp := by
        simp only [negotiate_compression_go, hc] at h
        exact Option.some.inj (Except.ok.inj h)
      exact ⟨c, [], rest, rfl, by rw [hc, he], by simp⟩
    | none =>
      have h2 : negotiate_compression_go find rest = .ok (some comp) := by
        simpa only [negotiate_compression_go, hc] using h
      obtain ⟨c2, pre, post, heq, hfc, hpre⟩ := ih comp h2
      refine ⟨c2, c :: pre, post, by simp [heq], hfc, ?_⟩
      intro x hx
      rcases List.mem_cons.mp hx with hx | hx
      · rw [hx]; exact hc
      · exact hpre x hx

/-- The compression loop never succeeds with `none`. -/
theorem negotiate_compression_go_ne_ok_none (find : String → Option String) :
    ∀ cands : List String, negotiate_compression_go find cands ≠ .ok none := by
  intro cands
  induction cands with
  | nil => intro h; simp [negotiate_compression_go] at h
  | cons c rest ih =>
    intro h
    cases hc : find c with
    | some e => simp [negotiate_compression_go, hc] at h
    | none => exact ih (by simpa only [negotiate_compression_go, hc] using h)

/-- C3: `negotiate_encoding` returns the first candidate, in the order
supplied by the peer, recognized by the local registry `find`; when the
candidate list is empty or no candidate is recognized it fails with
`NoCommonEncoding`; any returned encoding is in the candidate list and is
locally supported.  The hypothesis `hfind` states the spec's registry
semantics: a case-sensitive name match returns the matched name. -/
theorem C3_negotiate_encoding_spec (find : String → Option String)
    (hfind : ∀ c s, find c = some s → s = c) (cands : List String) :
    ((∀ c ∈ cands, find c = none) →
      negotiate_encoding find cands = .error (.loqui .NoCommonEncoding))
  ∧ (∀ enc, negotiate_encoding find cands = .ok enc →
      enc ∈ cands ∧ find enc = some enc ∧
        ∃ pre post, cands = pre ++ enc :: post ∧ ∀ c ∈ pre, find c = none) := by
  constructor
  · exact negotiate_encoding_all_none find cands
  · intro enc h
    obtain ⟨c, pre, post, heq, hfc, hpre⟩ := negotiate_encoding_ok_split find cands enc h
    have hce : enc = c := hfind c enc hfc
    subst hce
    exact ⟨by simp [heq], hfc, pre, post, heq, hpre⟩

/-- C3 witness: with a registry recognizing "json" and "msgpack", the
candidate list ["xml", "msgpack", "json"] negotiates to "msgpack", the
first recognized candidate in peer order. -/
theorem C3_witness :
    "msgpack" ∈ ["xml", "msgpack", "json"] ∧
    findReg "msgpack" = some "msgpack" ∧
    ∃ pre post, ["xml", "msgpack", "json"] = pre ++ "msgpack" :: post ∧
      ∀ c ∈ pre, findReg c = none :=
  (C3_negotiate_encoding_spec findReg findReg_exact ["xml", "msgpack", "json"]).2
    "msgpack" rfl

/-- C4: `negotiate_compression` succeeds with `none` exactly when the
candidate list is empty; a non-empty list with no recognized candidate
fails with `NoCommonCompression`; a `some` result is the first locally
recognized candidate in peer order. -/
theorem C4_negotiate_compression_spec (find : String → Option String)
    (hfind : ∀ c s, find c = some s → s = c) (cands : List String) :
    (cands = [] → negotiate_compression find cands = .ok none)
  ∧ (cands ≠ [] → (∀ c ∈ cands, find c = none) →
      negotiate_compression find cands = .error (.loqui .NoCommonCompression))
  ∧ (∀ comp, negotiate_compression find cands = .ok (some comp) →
      comp ∈ cands ∧ find comp = some comp ∧
        ∃ pre post, cands = pre ++ comp :: post ∧ ∀ c ∈ pre, find c = none)
  ∧ (negotiate_compression find cands = .ok none → cands = []) := by
  refine ⟨?_, ?_, ?_, ?_⟩
  · intro hnil; simp [negotiate_compression, hnil]
  · intro hne hall
    have hne2 : ¬ cands.isEmpty := by
      cases cands with
      | nil => exact absurd rfl hne
      | cons c rest => simp
    simp only [negotiate_compression, if_neg hne2]
    exact negotiate_compression_go_all_none find cands hall
  · intro comp h
    by_cases hnil : cands.isEmpty
    · simp [negotiate_compression, hnil] at h
    · simp only [negotiate_compression, if_neg hnil] at h
      obtain ⟨c, pre, post, heq, hfc, hpre⟩ :=
        negotiate_compression_go_ok_split find cands comp h
      have hce : comp = c := hfind c comp hfc
      subst hce
      exact ⟨by simp [heq], hfc, pre, post, heq, hpre⟩
  · intro h
    by_cases hnil : cands.isEmpty
    · exact List.isEmpty_iff.mp hnil
    · simp only [negotiate_compression, if_neg hnil] at h
      exact absurd h (negotiate_compression_go_ne_ok_none find cands)

/-- C4 witness: the empty candidate list negotiates to `none`, while the
unrecognized non-empty list ["zstd"] fails with `NoCommonCompression`. -/
theorem C4_witness :
    negotiate_compression findReg [] = .ok none ∧
    negotiate_compression findReg ["zstd"] = .error (.loqui .NoCommonCompression) :=
  ⟨(C4_negotiate_compression_spec findReg findReg_exact []).1 rfl,
   (C4_negotiate_compression_spec findReg findReg_exact ["zstd"]).2.1
     (by decide) (fun c hc => by fin_cases hc; rfl)⟩

/-- C1 counterexample: a valid Hello (version matches, "json" negotiates)
is read, then the HelloAck write fails with an external error; the source
(`Err(e) => return Err((e.into(), None))`) discards the stream, so the
handshake fails with the write error paired with `none` — not with a
`some` stream as the claim states. -/
theorem C1_counterexample :
    @handshake Nat findReg findReg dur1 (some (.ok (.hello helloGood)))
        (fun _ _ => .error (Err.external 7)) 0
      = .error (Err.external 7, none) := rfl

/-- C1 amended: whenever the inbound frame is a Hello that validates to
`(ready, ack)` and the write of that HelloAck fails with `e`, the handshake
fails with `(e, none)`: the write error is propagated but the stream is
NOT returned (the failed write consumed it). -/
theorem C1_write_failure_returns_none {RW : Type}
    (find_encoding find_compression : String → Option String) (d : Duration)
    (h : Hello) (write : RW → HelloAck → Except Err RW) (rw : RW)
    (ready : Ready) (ack : HelloAck) (e : Err)
    (hok : handle_handshake_frame find_encoding find_compression (.hello h) d
      = .ok (ready, ack))
    (hw : write rw ack = .error e) :
    handshake find_encoding find_compression d (some (.ok (.hello h))) write rw
      = .error (e, none) := by
  simp [handshake, hok, hw]

/-- C1 witness: the amended statement evaluated at a concrete valid Hello
and a write that fails with external error 9, starting from stream 3. -/
theorem C1_witness :
    @handshake Nat findReg findReg dur1 (some (.ok (.hello helloGood)))
        (fun _ _ => .error (Err.external 9)) 3
      = .error (Err.external 9, none) :=
  C1_write_failure_returns_none findReg findReg dur1 helloGood
    (fun _ _ => .error (Err.external 9)) 3
    { ping_interval := dur1,
      transport_options := { encoding := "json", compression := none } }
    { flags := 0, ping_interval_ms := 5000, encoding := "json", compression := none }
    (Err.external 9) rfl rfl

/-- C2: for every Request, `handle_request` pairs a decode failure with the
request's `sequence_id`; a successful decode and encode yields exactly
`Response { flags := 0, sequence_id, payload := encode(handler result) }`;
an encode failure is again paired with the same `sequence_id` — the
outbound sequence id always equals the inbound one. -/
theorem C2_handle_request_sequence_id {D E : Type}
    (decode : Bytes → Except Err D) (request_handler : D → E)
    (encode : E → Except Err Bytes) (request : Request) :
    (∀ e, decode request.payload = .error e →
      handle_request decode request_handler encode request
        = .error (e, request.sequence_id))
  ∧ (∀ d p, decode request.payload = .ok d →
      encode (request_handler d) = .ok p →
      handle_request decode request_handler encode request
        = .ok { flags := 0, sequence_id := request.sequence_id, payload := p })
  ∧ (∀ d e, decode request.payload = .ok d →
      encode (request_handler d) = .error e →
      handle_request decode request_handler encode request
        = .error (e, request.sequence_id)) := by
  refine ⟨?_, ?_, ?_⟩ <;> intro _ _ <;> intros <;> simp [handle_request, *]

/-- C2 witness: the concrete request with sequence id 42 and payload [4]
decodes to 4, is handled to 5, and yields the Response with the same
sequence id 42 and payload [5]. -/
theorem C2_witness :
    handle_request dec0 handler0 enc0 req0
      = .ok { flags := 0, sequence_id := 42, payload := [5] } :=
  (C2_handle_request_sequence_id dec0 handler0 enc0 req0).2.1 4 [5] rfl rfl

/-- C5: a Hello whose version differs from `VERSION` always fails
validation with `UnsupportedVersion { expected := VERSION, actual }`,
regardless of its encodings and compressions lists and of the registry. -/
theorem C5_version_mismatch (find_encoding find_compression : String → Option String)
    (h : Hello) (d : Duration) (hv : h.version ≠ VERSION) :
    handle_handshake_hello find_encoding find_compression h d
      = .error (.loqui (.UnsupportedVersion VERSION h.version)) := by
  simp [handle_handshake_hello, hv]

/-- C5 witness: `helloBad` (version 2, otherwise-valid encodings) fails
with `UnsupportedVersion { expected := 1, actual := 2 }`. -/
theorem C5_witness :
    handle_handshake_hello findReg findReg helloBad dur1
      = .error (.loqui (.UnsupportedVersion VERSION 2)) :=
  C5_version_mismatch findReg findReg helloBad dur1 (by decide)

/-- C6: a non-Hello first handshake frame never yields a Ready: a GoAway
fails with `ToldToGoAway` carrying it, and any other frame kind fails with
`InvalidOpcode` whose `actual` is that frame's opcode and whose `expected`
is `some Hello.OPCODE`. -/
theorem C6_non_hello_handshake_frame
    (find_encoding find_compression : String → Option String)
    (d : Duration) (frame : LoquiFrame) (hnh : ∀ h, frame ≠ .hello h) :
    (∀ g, frame = .goAway g →
      handle_handshake_frame find_encoding find_compression frame d
        = .error (.loqui (.ToldToGoAway g)))
  ∧ ((∀ g, frame ≠ .goAway g) →
      handle_handshake_frame find_encoding find_compression frame d
        = .error (.loqui (.InvalidOpcode frame.opcode (some Hello.OPCODE))))
  ∧ (∀ r, handle_handshake_frame find_encoding find_compression frame d ≠ .ok r) := by
  refine ⟨?_, ?_, ?_⟩
  · intro g hg; subst hg; rfl
  · intro hng
    cases frame with
    | hello h => exact absurd rfl (hnh h)
    | goAway g => exact absurd rfl (hng g)
    | helloAck x => rfl
    | ping x => rfl
    | pong x => rfl
    | request x => rfl
    | response x => rfl
    | push x => rfl
    | error x => rfl
  · intro r hr
    cases frame with
    | hello h => exact absurd rfl (hnh h)
    | goAway g => simp [handle_handshake_frame] at hr
    | helloAck x => simp [handle_handshake_frame] at hr
    | ping x => simp [handle_handshake_frame] at hr
    | pong x => simp [handle_handshake_frame] at hr
    | request x => simp [handle_handshake_frame] at hr
    | response x => simp [handle_handshake_frame] at hr
    | push x => simp [handle_handshake_frame] at hr
    | error x => simp [handle_handshake_frame] at hr

/-- C6 witness: a GoAway in place of Hello fails with `ToldToGoAway g0`,
and a Ping in place of Hello fails with `InvalidOpcode` carrying the Ping
opcode and `some Hello.OPCODE`. -/
theorem C6_witness :
    handle_handshake_frame findReg findReg (.goAway g0) dur1
      = .error (.loqui (.ToldToGoAway g0))
  ∧ handle_handshake_frame findReg findReg (.ping p0) dur1
      = .error (.loqui (.InvalidOpcode (LoquiFrame.ping p0).opcode (some Hello.OPCODE))) :=
  ⟨(C6_non_hello_handshake_frame findReg findReg dur1 (.goAway g0)
      (fun h => by simp)).1 g0 rfl,
   (C6_non_hello_handshake_frame findReg findReg dur1 (.ping p0)
      (fun h => by simp)).2.1 (fun g => by simp)⟩

/-- C7: the upgrade stage, for every writer/stream instantiation: on
reading `UpgradeRequest` it performs the single write `send .response` and,
when that write succeeds with writer `w`, returns the underlying stream
`reunite w`; a write failure propagates that error; reading any other
frame (here `.response`, the only other upgrade frame) fails with
`InvalidUpgradeFrame` for every `send`, hence without writing; a read
error propagates unchanged; a clean end of stream fails with
`TcpStreamClosed`.  The final conjunct instruments the writer with a trace
and shows exactly one `UpgradeResponse` is written on the success path. -/
theorem C7_upgrade_spec :
    (∀ (W S : Type) (send : UpgradeFrame → Except Err W)
        (reunite : W → Except Err S),
      (∀ w, send .response = .ok w →
        upgrade (some (.ok .request)) send reunite = reunite w)
      ∧ (∀ e, send .response = .error e →
        upgrade (some (.ok .request)) send reunite = .error e)
      ∧ upgrade (some (.ok .response)) send reunite
          = .error (.loqui (.InvalidUpgradeFrame .response))
      ∧ (∀ e, upgrade (some (.error e)) send reunite = .error e)
      ∧ upgrade none send reunite = .error (.loqui .TcpStreamClosed))
  ∧ upgrade (some (.ok .request)) (fun f => Except.ok [f]) Except.ok
      = .ok [UpgradeFrame.response] := by
  refine ⟨fun W S send reunite => ⟨?_, ?_, rfl, fun e => rfl, rfl⟩, rfl⟩
  · intro w hw; simp [upgrade, hw]
  · intro e he; simp [upgrade, he]

/-- C7 witness: with a writer that succeeds (returning 0) and a reunite
that returns the stream unchanged, reading `UpgradeRequest` yields the
stream. -/
theorem C7_witness :
    upgrade (some (.ok .request)) (fun (_ : UpgradeFrame) => Except.ok 0)
        (fun (w : Nat) => Except.ok w)
      = .ok 0 :=
  (C7_upgrade_spec.1 Nat Nat (fun _ => Except.ok 0) (fun w => Except.ok w)).1 0 rfl

/-- C8: a Push frame never produces an outbound frame: `handle_frame`
yields `none` for every decoder, handler and encoder; on decode success
the decoded value is handed to the push entry point
(`handle_push … = some d`), on decode failure the push is dropped
(`handle_push … = none`). -/
theorem C8_push_no_outbound {D E : Type}
    (decode : Bytes → Except Err D) (request_handler : D → E)
    (encode : E → Except Err Bytes) (push : Push) :
    handle_frame decode request_handler encode (.push push) = none
  ∧ (∀ d, decode push.payload = .ok d → handle_push decode push = some d)
  ∧ (∀ e, decode push.payload = .error e → handle_push decode push = none) := by
  refine ⟨rfl, ?_, ?_⟩ <;> intro x hx <;> simp [handle_push, hx]

/-- C8 witness: the concrete push with payload [4] produces no outbound
frame, and its decoded value 4 reaches the push entry point. -/
theorem C8_witness :
    handle_frame dec0 handler0 enc0 (.push push0) = none
  ∧ handle_push dec0 push0 = some 4 :=
  ⟨(C8_push_no_outbound dec0 handler0 enc0 push0).1,
   (C8_push_no_outbound dec0 handler0 enc0 push0).2.1 4 rfl⟩

/-- C9: a Hello that passes validation (version matches, both negotiations
succeed) yields exactly the HelloAck echoing the Hello's flags, carrying
the configured interval's milliseconds (as u32) and the negotiated
encoding and compression, and the Ready carrying the configured interval
and the same negotiated TransportOptions. -/
theorem C9_success_construction
    (find_encoding find_compression : String → Option String)
    (h : Hello) (d : Duration) (enc : String) (comp : Option String)
    (hv : h.version = VERSION)
    (he : negotiate_encoding find_encoding h.encodings = .ok enc)
    (hc : negotiate_compression find_compression h.compressions = .ok comp) :
    handle_handshake_hello find_encoding find_compression h d
      = .ok ({ ping_interval := d,
               transport_options := { encoding := enc, compression := comp } },
             { flags := h.flags,
               ping_interval_ms := d.as_millis % 2 ^ 32,
               encoding := enc,
               compression := comp }) := by
  simp [handle_handshake_hello, hv, he, hc]

/-- C9 witness: `helloGood` at interval `dur1` (5 s) validates to the
Ready/HelloAck pair with encoding "json", no compression, and
`ping_interval_ms = 5000`. -/
theorem C9_witness :
    handle_handshake_hello findReg findReg helloGood dur1
      = .ok ({ ping_interval := dur1,
               transport_options := { encoding := "json", compression := none } },
             { flags := helloGood.flags,
               ping_interval_ms := dur1.as_millis % 2 ^ 32,
               encoding := "json",
               compression := none }) :=
  C9_success_construction findReg findReg helloGood dur1 "json" none rfl rfl rfl

/-- C10: the advertised `ping_interval_ms` of any HelloAck produced by
handshake validation is the configured interval's total milliseconds
reduced modulo 2^32 (the `as u32` cast); when the millisecond count
exceeds `u32::MAX` the advertised value is the silently truncated low 32
bits and differs from the true count — no failure, no saturation. -/
theorem C10_ping_interval_truncation
    (find_encoding find_compression : String → Option String)
    (h : Hello) (d : Duration) (ready : Ready) (ack : HelloAck)
    (hok : handle_handshake_hello find_encoding find_compression h d
      = .ok (ready, ack))
    (hbig : 2 ^ 32 ≤ d.as_millis) :
    ack.ping_interval_ms = d.as_millis % 2 ^ 32
      ∧ ack.ping_interval_ms ≠ d.as_millis := by
  rw [handle_handshake_hello] at hok
  split at hok
  · exact absurd hok (by simp)
  · cases hen : negotiate_encoding find_encoding h.encodings with
    | error e => rw [hen] at hok; simp at hok
    | ok enc =>
      rw [hen] at hok
      cases hco : negotiate_compression find_compression h.compressions with
      | error e => rw [hco] at hok; simp at hok
      | ok comp =>
        rw [hco] at hok
        simp only [Except.ok.injEq, Prod.mk.injEq] at hok
        obtain ⟨h1, h2⟩ := hok
        subst h2
        have hlt : d.as_millis % 2 ^ 32 < 2 ^ 32 := Nat.mod_lt _ (by norm_num)
        have h32 : (2 : Nat) ^ 32 = 4294967296 := by norm_num
        refine ⟨rfl, ?_⟩
        show d.as_millis % 2 ^ 32 ≠ d.as_millis
        rw [h32] at hlt hbig ⊢
        omega

/-- C10 witness: the interval `durBig` (4294968 s = 4294968000 ms, above
`u32::MAX`) is advertised as 704 = 4294968000 mod 2^32, which differs from
the true millisecond count. -/
theorem C10_witness :
    ackBig.ping_interval_ms = durBig.as_millis % 2 ^ 32
      ∧ ackBig.ping_interval_ms ≠ durBig.as_millis :=
  C10_ping_interval_truncation findReg findReg helloGood durBig readyBig ackBig
    rfl (by norm_num [Duration.as_millis, durBig])

end Loqui
